import Mathlib

/-!
Shallow embedding of `sbcsbol/ice_utils.py` (synbiochem-sbol): the `ICEEntry`
record, the `ICEClient` synchronization operations, and the identifier codec
(`get_ice_number` / `get_ice_id`).  Python strings are modelled by Lean
`String` (operated on through `String.data : List Char`), JSON values by the
inductive `JVal`, Python dicts by association lists with dict update
semantics, and the HTTP transport by oracle functions carried in the client
structure.  Fallible Python code (assertions, `KeyError`, `ValueError`) is
modelled with `Option`.
-/

/-- JSON-style value appearing in ICE metadata dictionaries and responses. -/
inductive JVal where
  | num (n : Int)
  | str (s : String)
  | bool (b : Bool)
  | null
  deriving DecidableEq

/-- Python dict with String keys and JSON values, as an association list with
unique keys in insertion order. -/
abbrev Metadata : Type := List (String × JVal)

/-- Dict lookup: `m[k]` as an `Option` (`none` models `KeyError` / `k not in m`). -/
def mget (m : Metadata) (k : String) : Option JVal :=
  (List.find? (fun p => p.1 = k) m).map (fun p => p.2)

/-- Python `k in m`. -/
def mhas (m : Metadata) (k : String) : Bool :=
  (mget m k).isSome

/-- Python `m[k] = v`: overwrite in place when the key exists, append otherwise. -/
def mset (m : Metadata) (k : String) (v : JVal) : Metadata :=
  if mhas m k then List.map (fun p => if p.1 = k then (k, v) else p) m
  else m ++ [(k, v)]

/-- Python `m.update(new)`: set every key of `new` in order. -/
def mupdate (m new : Metadata) : Metadata :=
  List.foldl (fun acc p => mset acc p.1 p.2) m new

/-- Python truthiness of a JSON value. -/
def pyTruthy : JVal → Bool
  | .num n => n ≠ 0
  | .str s => s ≠ ""
  | .bool b => b
  | .null => false

/-- Decimal digit characters of `n`, most significant first, empty for `0`;
structural fuel recursion so the kernel can evaluate it (`fuel ≥ n` suffices). -/
def natCharsAux : Nat → Nat → List Char
  | 0, _ => []
  | fuel + 1, n =>
      if n = 0 then []
      else natCharsAux fuel (n / 10) ++ [Char.ofNat (48 + n % 10)]

/-- Decimal digit characters of `n`, most significant first, empty for `0`. -/
def natChars (n : Nat) : List Char := natCharsAux n n

/-- Characters of Python `str(n)` for a natural `n` (so `0` prints as `"0"`). -/
def natStrChars (n : Nat) : List Char :=
  if n = 0 then ['0'] else natChars n

/-- Python `str(i)` for an integer. -/
def intStr (i : Int) : String :=
  String.mk (if i < 0 then '-' :: natStrChars i.natAbs else natStrChars i.toNat)

/-- Characters of Python `format(i, '06')`: zero-pad the decimal form of `i`
to total width 6, the sign (if any) counting toward the width. -/
def pyFormat06L (i : Int) : List Char :=
  if i < 0 then
    '-' :: (List.replicate (5 - (natStrChars i.natAbs).length) '0' ++
      natStrChars i.natAbs)
  else
    List.replicate (6 - (natStrChars i.toNat).length) '0' ++ natStrChars i.toNat

/-- Digit accumulation used to model Python `int()` on a digit string. -/
def parseDigits (cs : List Char) : Nat :=
  List.foldl (fun a c => a * 10 + (c.toNat - 48)) 0 cs

/-- Python `int(s)` on an optionally `'-'`-signed digit string (`none` models
`ValueError`; whitespace/underscore forms are out of scope for this client). -/
def pyIntChars (cs : List Char) : Option Int :=
  if cs.head? = some '-' then
    if cs.tail ≠ [] ∧ cs.tail.all Char.isDigit then
      some (-(parseDigits cs.tail : Int))
    else none
  else
    if cs ≠ [] ∧ cs.all Char.isDigit then some ((parseDigits cs : Nat) : Int)
    else none

/-- One left-to-right pass of Python `s.replace(pat, '')` (delete every
occurrence of `pat`), with structural fuel (`fuel ≥ s.length` suffices). -/
def pyReplaceDelFuel : Nat → List Char → List Char → List Char
  | 0, s, _ => s
  | _ + 1, [], _ => []
  | fuel + 1, c :: rest, pat =>
      if pat ≠ [] ∧ pat.isPrefixOf (c :: rest) then
        pyReplaceDelFuel fuel (List.drop pat.length (c :: rest)) pat
      else c :: pyReplaceDelFuel fuel rest pat

/-- Python `s.replace(pat, '')` for non-empty `pat`. -/
def pyReplaceDel (s pat : List Char) : List Char :=
  pyReplaceDelFuel s.length s pat

/-- Python `s.replace(pat, '')` (an empty pattern with empty replacement
leaves `s` unchanged). -/
def pyReplaceEmpty (s pat : List Char) : List Char :=
  if pat = [] then s else pyReplaceDel s pat

/-- Module constant `_DEFAULT_ID_PFX = 'SBC'`. -/
def _DEFAULT_ID_PFX : String := "SBC"

/-- Function `get_ice_number` of `ice_utils.py`: on a string, strip every
occurrence of the prefix and parse the remainder with `int()` (a parse
failure, Python `ValueError`, is `none`); on a non-string, fall back to
Python `str()` of the value (the `AttributeError` branch). -/
def get_ice_number (ice_identifier : JVal) (id_pfx : String) : Option String :=
  match ice_identifier with
  | .str s => (pyIntChars (pyReplaceEmpty s.data id_pfx.data)).map intStr
  | .num n => some (intStr n)
  | .bool b => some (if b then "True" else "False")
  | .null => some "None"

/-- Function `get_ice_id` of `ice_utils.py`: `id_pfx + format(n, '06')`. -/
def get_ice_id (ice_number : Int) (id_pfx : String) : String :=
  id_pfx ++ String.mk (pyFormat06L ice_number)

theorem data_append (a b : String) : (a ++ b).data = a.data ++ b.data := rfl

theorem parseDigits_append (xs ys : List Char) :
    parseDigits (xs ++ ys) =
      List.foldl (fun a c => a * 10 + (c.toNat - 48)) (parseDigits xs) ys := by
  unfold parseDigits
  exact List.foldl_append _ _ _ _

theorem parseDigits_replicate_zero (k : Nat) (ds : List Char) :
    parseDigits (List.replicate k '0' ++ ds) = parseDigits ds := by
  induction k with
  | zero => simp
  | succ k ih =>
      have : List.replicate (k + 1) '0' ++ ds = '0' :: (List.replicate k '0' ++ ds) := by
        simp [List.replicate_succ]
      rw [this]
      unfold parseDigits at ih ⊢
      simpa using ih

theorem digitChar_toNat (d : Nat) (hd : d < 10) :
    (Char.ofNat (48 + d)).toNat = 48 + d := by
  interval_cases d <;> decide

theorem digitChar_isDigit (d : Nat) (hd : d < 10) :
    (Char.ofNat (48 + d)).isDigit = true := by
  interval_cases d <;> decide

theorem parseDigits_natCharsAux (fuel n : Nat) (h : n ≤ fuel) :
    parseDigits (natCharsAux fuel n) = n := by
  induction fuel generalizing n with
  | zero =>
      have : n = 0 := Nat.le_zero.mp h
      simp [natCharsAux, this, parseDigits]
  | succ fuel ih =>
      by_cases hn : n = 0
      · simp [natCharsAux, hn, parseDigits]
      · have hdiv : n / 10 ≤ fuel := by
          have h1 : n / 10 < n := Nat.div_lt_self (Nat.pos_of_ne_zero hn) (by norm_num)
          omega
        rw [natCharsAux]
        simp only [hn, if_false]
        rw [parseDigits_append, ih _ hdiv]
        simp only [List.foldl_cons, List.foldl_nil]
        rw [digitChar_toNat _ (Nat.mod_lt _ (by norm_num))]
        omega

theorem parseDigits_natStrChars (n : Nat) :
    parseDigits (natStrChars n) = n := by
  by_cases hn : n = 0
  · simp [natStrChars, hn, parseDigits]
  · simp only [natStrChars, hn, if_false, natChars]
    exact parseDigits_natCharsAux n n le_rfl

theorem natCharsAux_isDigit (fuel n : Nat) :
    ∀ c ∈ natCharsAux fuel n, c.isDigit = true := by
  induction fuel generalizing n with
  | zero => simp [natCharsAux]
  | succ fuel ih =>
      intro c hc
      rw [natCharsAux] at hc
      by_cases hn : n = 0
      · simp [hn] at hc
      · simp only [hn, if_false, List.mem_append, List.mem_singleton] at hc
        rcases hc with hc | hc
        · exact ih _ c hc
        · rw [hc]
          exact digitChar_isDigit _ (Nat.mod_lt _ (by norm_num))

theorem natStrChars_isDigit (n : Nat) :
    ∀ c ∈ natStrChars n, c.isDigit = true := by
  intro c hc
  by_cases hn : n = 0
  · simp [natStrChars, hn] at hc
    rw [hc]; decide
  · simp only [natStrChars, hn, if_false, natChars] at hc
    exact natCharsAux_isDigit n n c hc

theorem natStrChars_ne_nil (n : Nat) : natStrChars n ≠ [] := by
  by_cases hn : n = 0
  · simp [natStrChars, hn]
  · simp only [natStrChars, hn, if_false, natChars]
    have hfuel : n ≤ n := le_rfl
    cases n with
    | zero => exact absurd rfl hn
    | succ m =>
        rw [natCharsAux]
        simp [hn]

theorem pyIntChars_digits (cs : List Char) (hne : cs ≠ [])
    (hd : ∀ c ∈ cs, c.isDigit = true) :
    pyIntChars cs = some ((parseDigits cs : Nat) : Int) := by
  have hhead : cs.head? ≠ some '-' := by
    intro h
    cases cs with
    | nil => exact hne rfl
    | cons c rest =>
        simp only [List.head?_cons, Option.some.injEq] at h
        have := hd c (by simp)
        rw [h] at this
        exact absurd this (by decide)
  unfold pyIntChars
  rw [if_neg hhead, if_pos ⟨hne, List.all_eq_true.mpr (by intro c hc; exact hd c hc)⟩]

theorem pyReplaceDelFuel_skip (fuel : Nat) (tl pat : List Char)
    (hpat : pat ≠ []) (hnd : ∀ c ∈ pat, c.isDigit = false)
    (htl : ∀ c ∈ tl, c.isDigit = true) :
    pyReplaceDelFuel fuel tl pat = tl := by
  induction fuel generalizing tl with
  | zero => rfl
  | succ fuel ih =>
      cases tl with
      | nil => rfl
      | cons c rest =>
          rw [pyReplaceDelFuel]
          have hnp : ¬ (pat ≠ [] ∧ pat.isPrefixOf (c :: rest) = true) := by
            rintro ⟨-, hpre⟩
            cases pat with
            | nil => exact hpat rfl
            | cons q qs =>
                simp only [List.isPrefixOf, Bool.and_eq_true, beq_iff_eq] at hpre
                have hq : q.isDigit = false := hnd q (by simp)
                have hc : c.isDigit = true := htl c (by simp)
                rw [hpre.1] at hq
                rw [hq] at hc
                exact Bool.false_ne_true hc
          rw [if_neg hnp]
          congr 1
          exact ih rest (fun c hc => htl c (List.mem_cons_of_mem _ hc))

theorem isPrefixOf_append_self (xs ys : List Char) :
    xs.isPrefixOf (xs ++ ys) = true := by
  induction xs with
  | nil => simp [List.isPrefixOf]
  | cons x xs ih => simp [List.isPrefixOf, ih]

theorem pyReplaceDelFuel_prefix_step (fuel : Nat) (tl pat : List Char)
    (hpat : pat ≠ []) :
    pyReplaceDelFuel (fuel + 1) (pat ++ tl) pat = pyReplaceDelFuel fuel tl pat := by
  cases pat with
  | nil => exact absurd rfl hpat
  | cons q qs =>
      have happ : (q :: qs) ++ tl = q :: (qs ++ tl) := rfl
      rw [happ, pyReplaceDelFuel]
      have hpre : (q :: qs).isPrefixOf (q :: (qs ++ tl)) = true := by
        rw [← happ]
        exact isPrefixOf_append_self _ _
      rw [if_pos ⟨by simp, hpre⟩]
      congr 1
      have hlen : (q :: qs).length = qs.length + 1 := rfl
      rw [hlen, List.drop_succ_cons, List.drop_left]

theorem pyReplaceDel_prefix_digits (pat tl : List Char) (hpat : pat ≠ [])
    (hnd : ∀ c ∈ pat, c.isDigit = false) (htl : ∀ c ∈ tl, c.isDigit = true) :
    pyReplaceDel (pat ++ tl) pat = tl := by
  unfold pyReplaceDel
  have hplen : 1 ≤ pat.length := by
    cases pat with
    | nil => exact absurd rfl hpat
    | cons q qs => simp
  have hlen : (pat ++ tl).length = (pat.length - 1 + tl.length) + 1 := by
    rw [List.length_append]
    omega
  rw [hlen, pyReplaceDelFuel_prefix_step _ _ _ hpat,
    pyReplaceDelFuel_skip _ _ _ hpat hnd htl]

theorem pyFormat06L_ofNat_eq (n : Nat) :
    pyFormat06L (n : Int) =
      List.replicate (6 - (natStrChars n).length) '0' ++ natStrChars n := by
  unfold pyFormat06L
  rw [if_neg (by omega), Int.toNat_ofNat]

theorem pyFormat06L_ofNat_digits (n : Nat) :
    ∀ c ∈ pyFormat06L (n : Int), c.isDigit = true := by
  intro c hc
  rw [pyFormat06L_ofNat_eq] at hc
  rcases List.mem_append.mp hc with hc | hc
  · rw [List.eq_of_mem_replicate hc]
    decide
  · exact natStrChars_isDigit n c hc

theorem pyFormat06L_ofNat_ne_nil (n : Nat) : pyFormat06L (n : Int) ≠ [] := by
  rw [pyFormat06L_ofNat_eq]
  intro h
  rcases List.append_eq_nil.mp h with ⟨-, h2⟩
  exact natStrChars_ne_nil n h2

theorem parseDigits_pyFormat06L (n : Nat) :
    parseDigits (pyFormat06L (n : Int)) = n := by
  rw [pyFormat06L_ofNat_eq, parseDigits_replicate_zero, parseDigits_natStrChars]

/-- C3 (amended): for every natural id `n` and every prefix `p` containing no
decimal digit, stripping the prefix from the display form and parsing the
remainder recovers the decimal string of `n`:
`get_ice_number (get_ice_id n p) p = str(n)`. -/
theorem get_ice_number_get_ice_id_roundtrip (n : Nat) (p : String)
    (hp : ∀ c ∈ p.data, c.isDigit = false) :
    get_ice_number (JVal.str (get_ice_id (n : Int) p)) p = some (intStr (n : Int)) := by
  have hdata : (p ++ String.mk (pyFormat06L (n : Int))).data =
      p.data ++ pyFormat06L (n : Int) := rfl
  simp only [get_ice_number, get_ice_id, hdata]
  have hrepl : pyReplaceEmpty (p.data ++ pyFormat06L (n : Int)) p.data =
      pyFormat06L (n : Int) := by
    unfold pyReplaceEmpty
    by_cases hnil : p.data = []
    · rw [if_pos hnil, hnil, List.nil_append]
    · rw [if_neg hnil]
      exact pyReplaceDel_prefix_digits _ _ hnil hp (pyFormat06L_ofNat_digits n)
  rw [hrepl, pyIntChars_digits _ (pyFormat06L_ofNat_ne_nil n) (pyFormat06L_ofNat_digits n),
    parseDigits_pyFormat06L]
  rfl

/-- C3 counterexample: with prefix `"1"` and id `1`, the display id is
`"1000001"`, `replace` strips every occurrence of `"1"`, and the round trip
yields `"0"` although `str(1) = "1"`. -/
theorem get_ice_number_get_ice_id_roundtrip_cex :
    get_ice_number (JVal.str (get_ice_id 1 "1")) "1" = some "0" ∧
      intStr 1 = "1" := by
  constructor
  · rfl
  · rfl

theorem get_ice_number_get_ice_id_roundtrip_witness :
    (∀ c ∈ ("SBC" : String).data, c.isDigit = false) ∧
      get_ice_number (JVal.str (get_ice_id ((123 : Nat) : Int) "SBC")) "SBC" =
        some (intStr ((123 : Nat) : Int)) :=
  ⟨by decide, get_ice_number_get_ice_id_roundtrip 123 "SBC" (by decide)⟩

/-- Opaque sequence document.  Modelled from the spec: the sequence-document
collaborator (`sbol` / `sbol_utils`, not under `src/`) treats a document as an
opaque handle from which a linear sequence string can be decoded; only that
decoded sequence is observable to this client. -/
structure SBOLDoc where
  seq : String
  deriving DecidableEq

/-- Modelled from the spec: `sbol_utils.get_seq` (module not under `src/`)
computes the linear sequence string encoded by a document. -/
def sbol_get_seq (doc : SBOLDoc) : String := doc.seq

/-- Class `ICEEntry`: a metadata dict, an optional owned SBOL document, and
the dirty flag `__sbol_doc_updated`. -/
structure ICEEntry where
  sbol_doc : Option SBOLDoc
  sbol_doc_updated : Bool
  metadata : Metadata
  deriving DecidableEq

/-- Constructor `ICEEntry.__init__(sbol_doc, typ, metadata)`: the assertion
`typ is not None or metadata is not None` is modelled by returning `none`
when it fails; the dirty flag starts as `sbol_doc is not None`; when no
metadata is given the dict is `{'type': typ}`, and a given metadata dict has
`'type'` set to `typ` only when the key is absent. -/
def ICEEntry.init (sbol_doc : Option SBOLDoc) (typ : JVal)
    (metadata : Option Metadata) : Option ICEEntry :=
  if typ = JVal.null ∧ metadata = none then none
  else some
    { sbol_doc := sbol_doc
      sbol_doc_updated := sbol_doc.isSome
      metadata :=
        match metadata with
        | none => [("type", typ)]
        | some m => if mhas m "type" then m else mset m "type" typ }

/-- Method `ICEEntry.get_ice_number`: `metadata['id']` when present. -/
def ICEEntry.get_ice_number (e : ICEEntry) : Option JVal :=
  mget e.metadata "id"

/-- Module-level `get_ice_id` applied at its default prefix, aliased so the
`ICEEntry` method below can refer to it without naming itself. -/
def get_ice_id_default_pfx (ice_number : Int) : String :=
  get_ice_id ice_number _DEFAULT_ID_PFX

/-- Method `ICEEntry.get_ice_id`: format the ice number with the module-level
`get_ice_id` and its default prefix.  `none` covers both the Python `None`
result (no `'id'` key) and a `format` failure on a non-numeric id (a Python
bool formats as its underlying 0/1 integer). -/
def ICEEntry.get_ice_id (e : ICEEntry) : Option String :=
  match ICEEntry.get_ice_number e with
  | some (.num n) => some (get_ice_id_default_pfx n)
  | some (.bool b) => some (get_ice_id_default_pfx (if b then 1 else 0))
  | _ => none

/-- Method `ICEEntry.get_record_id`: `metadata['recordId']` when present. -/
def ICEEntry.get_record_id (e : ICEEntry) : Option JVal :=
  mget e.metadata "recordId"

/-- Method `ICEEntry.get_type`: `metadata['type']`, a `KeyError` (`none`)
when the key is absent. -/
def ICEEntry.get_type (e : ICEEntry) : Option JVal :=
  mget e.metadata "type"

/-- Method `ICEEntry.get_name`: `metadata['name']`, defaulting to `''`. -/
def ICEEntry.get_name (e : ICEEntry) : JVal :=
  (mget e.metadata "name").getD (.str "")

/-- Method `ICEEntry.set_values`: `metadata.update(new_metadata)`. -/
def ICEEntry.set_values (e : ICEEntry) (new_metadata : Metadata) : ICEEntry :=
  { e with metadata := mupdate e.metadata new_metadata }

/-- Method `ICEEntry.set_value`: `metadata[key] = value`. -/
def ICEEntry.set_value (e : ICEEntry) (key : String) (value : JVal) : ICEEntry :=
  { e with metadata := mset e.metadata key value }

/-- Method `ICEEntry.set_sbol_doc`: replace the document and recompute the
dirty flag as `old is not None or new is not None`. -/
def ICEEntry.set_sbol_doc (e : ICEEntry) (sbol_doc : Option SBOLDoc) : ICEEntry :=
  { e with
    sbol_doc_updated := e.sbol_doc.isSome || sbol_doc.isSome
    sbol_doc := sbol_doc }

/-- Method `ICEEntry.unset_sbol_doc_updated`: clear the dirty flag. -/
def ICEEntry.unset_sbol_doc_updated (e : ICEEntry) : ICEEntry :=
  { e with sbol_doc_updated := false }

/-- C4: after every `set_sbol_doc` call the dirty flag equals
(previous document present) OR (new document present); in particular setting
no document on a record that had none leaves the flag false. -/
theorem set_sbol_doc_dirty_flag (e : ICEEntry) (d : Option SBOLDoc) :
    (ICEEntry.set_sbol_doc e d).sbol_doc_updated =
      (e.sbol_doc.isSome || d.isSome) := rfl

/-- C7 counterexample: constructing an entry with no type (`None`) and an
empty metadata dict succeeds, although the claim requires a non-empty
metadata mapping supplying the type. -/
theorem ICEEntry_init_empty_metadata_cex :
    ICEEntry.init none JVal.null (some []) =
      some { sbol_doc := none, sbol_doc_updated := false,
             metadata := [("type", JVal.null)] } := rfl

/-- C7 (amended): construction fails exactly when both the type and the
metadata argument are absent; a metadata dict (even empty, even without a
`'type'` key) or an explicit type suffices. -/
theorem ICEEntry_init_fails_iff (d : Option SBOLDoc) (t : JVal)
    (m : Option Metadata) :
    ICEEntry.init d t m = none ↔ (t = JVal.null ∧ m = none) := by
  unfold ICEEntry.init
  by_cases h : t = JVal.null ∧ m = none
  · rw [if_pos h]
    simp [h]
  · rw [if_neg h]
    simp [h]

/-- C10: a freshly constructed entry's dirty flag is exactly the presence of
the constructor's document argument. -/
theorem ICEEntry_init_dirty_flag (d : Option SBOLDoc) (t : JVal)
    (m : Option Metadata) (e : ICEEntry) (h : ICEEntry.init d t m = some e) :
    e.sbol_doc_updated = d.isSome := by
  unfold ICEEntry.init at h
  by_cases hc : t = JVal.null ∧ m = none
  · rw [if_pos hc] at h
    exact absurd h (by simp)
  · rw [if_neg hc] at h
    cases h
    rfl

theorem ICEEntry_init_dirty_flag_witness :
    ICEEntry.init (some ⟨"acgt"⟩) (JVal.str "PLASMID") none =
      some { sbol_doc := some ⟨"acgt"⟩, sbol_doc_updated := true,
             metadata := [("type", JVal.str "PLASMID")] } ∧
      ({ sbol_doc := some ⟨"acgt"⟩, sbol_doc_updated := true,
         metadata := [("type", JVal.str "PLASMID")] } : ICEEntry).sbol_doc_updated =
        (some (⟨"acgt"⟩ : SBOLDoc)).isSome :=
  ⟨rfl, ICEEntry_init_dirty_flag (some ⟨"acgt"⟩) (JVal.str "PLASMID") none _ rfl⟩

/-- Python `str()` of a JSON value. -/
def pyStr : JVal → String
  | .num n => intStr n
  | .str s => s
  | .bool b => if b then "True" else "False"
  | .null => "None"

/-- Python `str()` of a possibly-absent value (`str(None) = "None"`). -/
def pyStrOpt : Option JVal → String
  | none => "None"
  | some v => pyStr v

/-- Python `format(v, '06')` on a JSON value: ints format, a bool formats as
its underlying 0/1 integer, other values raise (`none`). -/
def jval_format06 : JVal → Option (List Char)
  | .num n => some (pyFormat06L n)
  | .bool b => some (pyFormat06L (if b then 1 else 0))
  | _ => none

/-- Python `s.lower()` (ASCII case folding suffices for nucleotide strings). -/
def pyLower (s : String) : String := String.mk (s.data.map Char.toLower)

/-- HTTP call issued by the client, recorded in order of execution. -/
inductive NetEvent where
  | createEntry (metadata : Metadata)
  | updateEntry (iceNumber : String) (metadata : Metadata)
  | getMeta (iceNumber : String)
  | deleteSeq (iceNumber : String)
  | uploadSbol (recordId : Option JVal) (typ : JVal) (doc : SBOLDoc)
  deriving DecidableEq

/-- One hit of the BLAST search response (`result['alignment']` and
`result['entryInfo']['id']`). -/
structure BlastResult where
  alignment : String
  entryId : JVal
  deriving DecidableEq

/-- Body of the search request `{blastQuery: {blastProgram, sequence}}`. -/
structure BlastQuery where
  blastProgram : String
  sequence : String
  deriving DecidableEq

/-- Decoded search response; `results = none` models a response without a
`'results'` key. -/
structure BlastResponse where
  results : Option (List BlastResult)
  deriving DecidableEq

/-- Transport-level failure signals visible to `reconnect`:
`net_utils.NetworkError`, or any other propagated failure (for example a
`KeyError` while decoding a response). -/
inductive NetErr where
  | network
  | keyError
  deriving DecidableEq

/-- Class `ICEClient` after login: configuration, session identity, and the
remote service modelled as response oracles keyed by the data of each
request. -/
structure ICEClient where
  id_pfx : String
  user : String
  email : String
  createResp : Metadata → Metadata
  updateResp : String → Metadata → Metadata
  metaResp : String → Metadata
  docResp : String → SBOLDoc
  blastResp : BlastQuery → BlastResponse

/-- Field extraction at the end of `reconnect`:
`resp['sessionId'], resp['firstName'] + ' ' + resp['lastName'], resp['email']`
(a missing or non-string field is a `KeyError`-like failure). -/
def extract_login (resp : Metadata) : Except NetErr (String × String × String) :=
  match mget resp "sessionId", mget resp "firstName",
      mget resp "lastName", mget resp "email" with
  | some (.str sid), some (.str fn), some (.str ln), some (.str em) =>
      .ok (sid, fn ++ " " ++ ln, em)
  | _, _, _, _ => .error .keyError

/-- Method `ICEClient.reconnect`: try the `'/accesstoken'` endpoint with the
credentials body; on `NetworkError` (and only on `NetworkError`) retry once
against `'/accesstokens'`; any failure of the fallback propagates unchanged.
Returns the result together with the list of endpoints called, in order. -/
def reconnect (endpoint : String → Metadata → Except NetErr Metadata)
    (username psswrd : String) :
    Except NetErr (String × String × String) × List String :=
  let body : Metadata := [("email", .str username), ("password", .str psswrd)]
  match endpoint "/accesstoken" body with
  | .ok resp => (extract_login resp, ["/accesstoken"])
  | .error .network =>
      (match endpoint "/accesstokens" body with
       | .ok resp => extract_login resp
       | .error e => .error e,
       ["/accesstoken", "/accesstokens"])
  | .error e => (.error e, ["/accesstoken"])

/-- Private method `ICEClient.__form_metadata`: inject `creator` and
`creatorEmail` from the session identity when absent; the mutation is in
place on the entry's own dict, so the entry is returned updated. -/
def ICEClient.form_metadata (c : ICEClient) (e : ICEEntry) : ICEEntry :=
  let m1 := if mhas e.metadata "creator" then e.metadata
    else mset e.metadata "creator" (.str c.user)
  let m2 := if mhas m1 "creatorEmail" then m1
    else mset m1 "creatorEmail" (.str c.email)
  { e with metadata := m2 }

/-- Method `ICEClient.get_ice_entry`: fetch metadata for the identifier,
fetch the sequence document when `metadata['hasSequence']` is truthy
(`KeyError` when the key is absent), and build `ICEEntry(sbol_doc,
metadata=metadata)`. -/
def ICEClient.get_ice_entry (c : ICEClient) (ice_id : JVal) : Option ICEEntry :=
  match get_ice_number ice_id c.id_pfx with
  | none => none
  | some numStr =>
      let metadata := c.metaResp numStr
      match mget metadata "hasSequence" with
      | none => none
      | some hs =>
          let sbol_doc := if pyTruthy hs then some (c.docResp numStr) else none
          ICEEntry.init sbol_doc JVal.null (some metadata)

/-- Method `ICEClient.get_sbol_doc`: the document part of `get_ice_entry`. -/
def ICEClient.get_sbol_doc (c : ICEClient) (ice_id : JVal) : Option (Option SBOLDoc) :=
  (c.get_ice_entry ice_id).map ICEEntry.sbol_doc

/-- Method `ICEClient.set_ice_entry`: create (no numeric id) or update
(numeric id present) with the creator-enriched metadata; refresh the entry's
metadata from the server; when the dirty flag is set, delete the remote
sequence if the fetched metadata reports one, then upload the local document
(when present) and clear the dirty flag; refresh the metadata again; return
`response['id']`.  The result carries the returned id, the entry's final
state, and the ordered trace of HTTP calls; `none` models an uncaught Python
exception (`KeyError`, `ValueError`, or `format` failure). -/
def ICEClient.set_ice_entry (c : ICEClient) (e : ICEEntry) :
    Option (JVal × ICEEntry × List NetEvent) :=
  let step1 : Option (Metadata × ICEEntry × NetEvent) :=
    match ICEEntry.get_ice_number e with
    | none =>
        let e1 := c.form_metadata e
        some (c.createResp e1.metadata, e1, .createEntry e1.metadata)
    | some idv =>
        let e1 := c.form_metadata e
        match get_ice_number idv c.id_pfx with
        | none => none
        | some numStr =>
            some (c.updateResp numStr e1.metadata, e1, .updateEntry numStr e1.metadata)
  match step1 with
  | none => none
  | some (resp, e1, ev1) =>
      match mget resp "id" with
      | none => none
      | some ridv =>
          match jval_format06 ridv with
          | none => none
          | some pad =>
              match get_ice_number (.str (c.id_pfx ++ String.mk pad)) c.id_pfx with
              | none => none
              | some numStr =>
                  let md := c.metaResp numStr
                  let e2 := ICEEntry.set_values e1 md
                  let dirtyStep : Option (ICEEntry × List NetEvent) :=
                    if e2.sbol_doc_updated then
                      let evDel : List NetEvent :=
                        if mhas md "hasSequence" &&
                            pyTruthy ((mget md "hasSequence").getD .null) then
                          [.deleteSeq (pyStrOpt (ICEEntry.get_ice_number e2))]
                        else []
                      match e2.sbol_doc with
                      | some doc =>
                          match ICEEntry.get_type e2 with
                          | none => none
                          | some typ =>
                              some (ICEEntry.unset_sbol_doc_updated e2,
                                evDel ++ [.uploadSbol (ICEEntry.get_record_id e2) typ doc])
                      | none => some (e2, evDel)
                    else some (e2, [])
                  match dirtyStep with
                  | none => none
                  | some (e3, evMid) =>
                      let md2 := c.metaResp numStr
                      let e4 := ICEEntry.set_values e3 md2
                      some (ridv, e4, ev1 :: .getMeta numStr :: (evMid ++ [.getMeta numStr]))

/-- Method `ICEClient.do_blast`: POST a
`{blastQuery: {blastProgram: 'BLAST_N', sequence: seq.lower()}}` body to the
search endpoint. -/
def ICEClient.do_blast (c : ICEClient) (seq : String) : BlastResponse :=
  c.blastResp { blastProgram := "BLAST_N", sequence := pyLower seq }

/-- Python substring containment `pat in s`, on character lists. -/
def containsSub : List Char → List Char → Bool
  | [], pat => pat.isEmpty
  | c :: rest, pat => pat.isPrefixOf (c :: rest) || containsSub rest pat

/-- Loop body of `get_ice_entries_by_seq`: for each search result whose
alignment contains `'100%'`, fetch the full entry and keep it when the
decoded sequence of its document equals the query (a document-less entry
compares unequal; in Python `sbol_utils.get_seq(None)` would raise). -/
def entries_by_seq_loop (c : ICEClient) (seq : String) :
    List BlastResult → Option (List ICEEntry)
  | [] => some []
  | r :: rs =>
      if containsSub r.alignment.data ("100%" : String).data then
        match c.get_ice_entry r.entryId with
        | none => none
        | some entry =>
            match entries_by_seq_loop c seq rs with
            | none => none
            | some rest =>
                if entry.sbol_doc.map sbol_get_seq = some seq then
                  some (entry :: rest)
                else some rest
      else entries_by_seq_loop c seq rs

/-- Method `ICEClient.get_ice_entries_by_seq`: run the BLAST search and
collect matching entries (an absent `'results'` key yields the empty list). -/
def ICEClient.get_ice_entries_by_seq (c : ICEClient) (seq : String) :
    Option (List ICEEntry) :=
  match (c.do_blast seq).results with
  | none => some []
  | some rs => entries_by_seq_loop c seq rs

/-- C2 counterexample: when both access-token endpoints raise a network
failure, `reconnect` propagates the fallback's `NetworkError` unchanged — the
operation does not fail with an authentication-specific error (no such error
kind exists in the code). -/
theorem reconnect_network_error_cex :
    (reconnect (fun _ _ => Except.error NetErr.network) "u" "p").1 =
      Except.error NetErr.network := rfl

/-- C2 (amended): a network failure at the primary access-token endpoint
causes exactly one fallback call (the endpoints called are exactly the
primary then the secondary, never more); if the fallback also fails, its
error propagates unchanged, so a network failure surfaces as `NetworkError`. -/
theorem reconnect_fallback_once
    (endpoint : String → Metadata → Except NetErr Metadata) (u p : String)
    (h : endpoint "/accesstoken" [("email", .str u), ("password", .str p)] =
      Except.error NetErr.network) :
    (reconnect endpoint u p).2 = ["/accesstoken", "/accesstokens"] ∧
      ∀ er, endpoint "/accesstokens" [("email", .str u), ("password", .str p)] =
          Except.error er →
        (reconnect endpoint u p).1 = Except.error er := by
  constructor
  · simp only [reconnect, h]
  · intro er he
    simp only [reconnect, h, he]

theorem reconnect_fallback_once_witness :
    ((fun (_ : String) (_ : Metadata) => Except.error (ε := NetErr) (α := Metadata)
        NetErr.network) "/accesstoken"
        [("email", .str "u"), ("password", .str "p")] =
      Except.error NetErr.network) ∧
      (reconnect (fun _ _ => Except.error NetErr.network) "u" "p").2 =
        ["/accesstoken", "/accesstokens"] ∧
      (reconnect (fun _ _ => Except.error NetErr.network) "u" "p").1 =
        Except.error NetErr.network := by
  have h := reconnect_fallback_once (fun _ _ => Except.error NetErr.network) "u" "p" rfl
  exact ⟨rfl, h.1, h.2 NetErr.network rfl⟩

/-- C8: an entry fetched through a client configured with any id prefix
reports a display id formatted by the module-level `get_ice_id` at the
module default prefix `'SBC'`, not the client's prefix. -/
theorem get_ice_entry_display_id_default_pfx (c : ICEClient) (ice_id : JVal)
    (e : ICEEntry) (n : Int)
    (hfetch : c.get_ice_entry ice_id = some e)
    (hid : ICEEntry.get_ice_number e = some (.num n)) :
    ICEEntry.get_ice_id e = some (get_ice_id n _DEFAULT_ID_PFX) := by
  unfold ICEEntry.get_ice_id
  rw [hid]
  rfl

/-- Concrete sequence document used by the witnesses. -/
def wDoc : SBOLDoc := ⟨"acgt"⟩

/-- Concrete server metadata used by the witnesses. -/
def wMeta : Metadata :=
  [("hasSequence", .bool true), ("id", .num 5), ("recordId", .str "rec1"),
   ("type", .str "PLASMID")]

/-- Concrete client used by the witnesses: id prefix `"XYZ"` (differing from
the module default), constant response oracles. -/
def wClient : ICEClient :=
  { id_pfx := "XYZ"
    user := "User Name"
    email := "user@example.org"
    createResp := fun _ => [("id", .num 7)]
    updateResp := fun _ _ => [("id", .num 5)]
    metaResp := fun _ => wMeta
    docResp := fun _ => wDoc
    blastResp := fun _ => ⟨none⟩ }

theorem get_ice_entry_display_id_default_pfx_witness :
    wClient.get_ice_entry (.num 5) = some ⟨some wDoc, true, wMeta⟩ ∧
      ICEEntry.get_ice_id ⟨some wDoc, true, wMeta⟩ =
        some (get_ice_id 5 _DEFAULT_ID_PFX) :=
  ⟨rfl, get_ice_entry_display_id_default_pfx wClient (.num 5) _ 5 rfl rfl⟩

theorem form_metadata_sbol_doc (c : ICEClient) (e : ICEEntry) :
    (c.form_metadata e).sbol_doc = e.sbol_doc := rfl

theorem form_metadata_flag (c : ICEClient) (e : ICEEntry) :
    (c.form_metadata e).sbol_doc_updated = e.sbol_doc_updated := rfl

theorem set_values_sbol_doc (e : ICEEntry) (m : Metadata) :
    (ICEEntry.set_values e m).sbol_doc = e.sbol_doc := rfl

theorem set_values_flag (e : ICEEntry) (m : Metadata) :
    (ICEEntry.set_values e m).sbol_doc_updated = e.sbol_doc_updated := rfl

/-- C9: when `set_ice_entry` succeeds on an entry whose dirty flag is set but
whose document is absent (dirty due to clearing), the returned entry's dirty
flag is still set — the flag is cleared only on the upload path. -/
theorem set_ice_entry_delete_only_keeps_dirty (c : ICEClient) (e : ICEEntry)
    (out : JVal × ICEEntry × List NetEvent)
    (hdirty : e.sbol_doc_updated = true) (hdoc : e.sbol_doc = none)
    (h : c.set_ice_entry e = some out) :
    out.2.1.sbol_doc_updated = true := by
  simp only [ICEClient.set_ice_entry] at h
  split at h
  · exact absurd h (by simp)
  · rename_i step1 resp e1 ev1 hstep
    split at h
    · exact absurd h (by simp)
    · rename_i ridv hridv
      split at h
      · exact absurd h (by simp)
      · rename_i pad hpad
        split at h
        · exact absurd h (by simp)
        · rename_i numStr hnum
          have he1doc : e1.sbol_doc = e.sbol_doc := by
            split at hstep
            · cases hstep
              exact form_metadata_sbol_doc c e
            · split at hstep
              · exact absurd hstep (by simp)
              · cases hstep
                exact form_metadata_sbol_doc c e
          have he1flag : e1.sbol_doc_updated = e.sbol_doc_updated := by
            split at hstep
            · cases hstep
              exact form_metadata_flag c e
            · split at hstep
              · exact absurd hstep (by simp)
              · cases hstep
                exact form_metadata_flag c e
          split at h
          · exact absurd h (by simp)
          · rename_i e3 evMid hdirtyStep
            split at hdirtyStep
            · split at hdirtyStep
              · rename_i doc hdoc2
                rw [set_values_sbol_doc, he1doc, hdoc] at hdoc2
                exact absurd hdoc2 (by simp)
              · cases hdirtyStep
                cases h
                simp only [set_values_flag, he1flag, hdirty]
            · rename_i hflag
              rw [set_values_flag, he1flag, hdirty] at hflag
              exact absurd rfl hflag

/-- C6: when `set_ice_entry` succeeds, an entry without a numeric id was
created (trace starts with the create call) and one with a numeric id was
updated (trace starts with the update call at that id), and in both cases
the returned value is exactly the `'id'` field of the service's response to
that call, not re-derived from the entry. -/
theorem set_ice_entry_create_or_update (c : ICEClient) (e : ICEEntry) :
    (ICEEntry.get_ice_number e = none →
      ∀ out, c.set_ice_entry e = some out →
        (∃ evs, out.2.2 = .createEntry (c.form_metadata e).metadata :: evs) ∧
          mget (c.createResp (c.form_metadata e).metadata) "id" = some out.1) ∧
    (∀ idv, ICEEntry.get_ice_number e = some idv →
      ∀ out, c.set_ice_entry e = some out →
        ∃ s, get_ice_number idv c.id_pfx = some s ∧
          (∃ evs, out.2.2 = .updateEntry s (c.form_metadata e).metadata :: evs) ∧
          mget (c.updateResp s (c.form_metadata e).metadata) "id" = some out.1) := by
  constructor
  · intro hid out h
    simp only [ICEClient.set_ice_entry, hid] at h
    split at h
    · exact absurd h (by simp)
    · rename_i ridv hridv
      split at h
      · exact absurd h (by simp)
      · split at h
        · exact absurd h (by simp)
        · split at h
          · exact absurd h (by simp)
          · rename_i e3 evMid hstep
            cases h
            exact ⟨⟨_, rfl⟩, hridv⟩
  · intro idv hid out h
    simp only [ICEClient.set_ice_entry, hid] at h
    cases hnum : get_ice_number idv c.id_pfx with
    | none =>
        simp only [hnum] at h
        exact absurd h (by simp)
    | some numStr =>
        simp only [hnum] at h
        refine ⟨numStr, rfl, ?_⟩
        split at h
        · exact absurd h (by simp)
        · rename_i ridv hridv
          split at h
          · exact absurd h (by simp)
          · split at h
            · exact absurd h (by simp)
            · split at h
              · exact absurd h (by simp)
              · rename_i e3 evMid hstep
                cases h
                exact ⟨⟨_, rfl⟩, hridv⟩

theorem mhas_eq (m : Metadata) (k : String) : mhas m k = (mget m k).isSome := rfl

theorem get_ice_number_num (n : Int) (p : String) :
    get_ice_number (.num n) p = some (intStr n) := rfl

theorem jval_format06_num (n : Int) :
    jval_format06 (.num n) = some (pyFormat06L n) := rfl

/-- C1: on an entry carrying a numeric id, with the server's refreshed
metadata reporting `hasSequence` true and a dirty local document present,
`set_ice_entry` issues, in order: the update call, a metadata refresh, the
delete of the existing remote sequence, the upload of the new document, and
a second metadata refresh; the dirty flag is cleared on the way. -/
theorem set_ice_entry_update_with_sequence_replace
    (c : ICEClient) (e : ICEEntry) (n m : Int) (ns : String) (tv : JVal)
    (doc : SBOLDoc)
    (hid : ICEEntry.get_ice_number e = some (.num n))
    (hdirty : e.sbol_doc_updated = true)
    (hdoc : e.sbol_doc = some doc)
    (hresp : mget (c.updateResp (intStr n) (c.form_metadata e).metadata) "id" =
      some (.num m))
    (hns : get_ice_number (.str (c.id_pfx ++ String.mk (pyFormat06L m)))
      c.id_pfx = some ns)
    (hhas : mget (c.metaResp ns) "hasSequence" = some (.bool true))
    (htyp : ICEEntry.get_type
      (ICEEntry.set_values (c.form_metadata e) (c.metaResp ns)) = some tv) :
    ∃ d r, c.set_ice_entry e =
      some (.num m,
        ICEEntry.set_values
          (ICEEntry.unset_sbol_doc_updated
            (ICEEntry.set_values (c.form_metadata e) (c.metaResp ns)))
          (c.metaResp ns),
        [.updateEntry (intStr n) (c.form_metadata e).metadata,
         .getMeta ns,
         .deleteSeq d,
         .uploadSbol r tv doc,
         .getMeta ns]) := by
  refine ⟨pyStrOpt (ICEEntry.get_ice_number
      (ICEEntry.set_values (c.form_metadata e) (c.metaResp ns))),
    ICEEntry.get_record_id
      (ICEEntry.set_values (c.form_metadata e) (c.metaResp ns)), ?_⟩
  have hflag : (ICEEntry.set_values (c.form_metadata e)
      (c.metaResp ns)).sbol_doc_updated = true := by
    rw [set_values_flag, form_metadata_flag, hdirty]
  have hdoc2 : (ICEEntry.set_values (c.form_metadata e)
      (c.metaResp ns)).sbol_doc = some doc := by
    rw [set_values_sbol_doc, form_metadata_sbol_doc, hdoc]
  simp only [ICEClient.set_ice_entry, hid, get_ice_number_num, hresp,
    jval_format06_num, hns, hflag, mhas_eq, hhas, htyp, hdoc2]
  simp [pyTruthy]

/-- Concrete dirty entry with a document and a numeric id, for the C1 witness. -/
def wEntryC1 : ICEEntry :=
  ⟨some wDoc, true,
    [("id", .num 5), ("type", .str "PLASMID"), ("recordId", .str "rec1")]⟩

theorem set_ice_entry_update_with_sequence_replace_witness :
    ∃ d r, wClient.set_ice_entry wEntryC1 =
      some (.num 5,
        ICEEntry.set_values
          (ICEEntry.unset_sbol_doc_updated
            (ICEEntry.set_values (wClient.form_metadata wEntryC1)
              (wClient.metaResp "5")))
          (wClient.metaResp "5"),
        [.updateEntry (intStr 5) (wClient.form_metadata wEntryC1).metadata,
         .getMeta "5",
         .deleteSeq d,
         .uploadSbol r (.str "PLASMID") wDoc,
         .getMeta "5"]) :=
  set_ice_entry_update_with_sequence_replace wClient wEntryC1 5 5 "5"
    (.str "PLASMID") wDoc rfl rfl rfl rfl rfl rfl rfl

/-- Concrete dirty entry with no document (cleared), for the C9 witness. -/
def wEntryC9 : ICEEntry :=
  ⟨none, true, [("id", .num 5), ("type", .str "PLASMID")]⟩

theorem set_ice_entry_delete_only_keeps_dirty_witness :
    (wClient.set_ice_entry wEntryC9).map (fun out => out.2.1.sbol_doc_updated) =
      some true := by
  cases hout : wClient.set_ice_entry wEntryC9 with
  | none =>
      have hs : (wClient.set_ice_entry wEntryC9).isSome = true := by decide
      rw [hout] at hs
      exact absurd hs (by simp)
  | some out =>
      have := set_ice_entry_delete_only_keeps_dirty wClient wEntryC9 out rfl rfl hout
      simp only [Option.map_some', this]

/-- Concrete fresh entry without a numeric id, for the C6 witness. -/
def wEntryNew : ICEEntry :=
  ⟨none, false, [("type", .str "PLASMID"), ("name", .str "foo")]⟩

theorem set_ice_entry_create_or_update_witness :
    (wClient.set_ice_entry wEntryNew).map
        (fun out => (out.2.2.head?, some out.1)) =
      some (some (.createEntry (wClient.form_metadata wEntryNew).metadata),
        mget (wClient.createResp (wClient.form_metadata wEntryNew).metadata) "id") := by
  cases hout : wClient.set_ice_entry wEntryNew with
  | none =>
      have hs : (wClient.set_ice_entry wEntryNew).isSome = true := by decide
      rw [hout] at hs
      exact absurd hs (by simp)
  | some out =>
      obtain ⟨⟨evs, hevs⟩, hmget⟩ :=
        (set_ice_entry_create_or_update wClient wEntryNew).1 rfl out hout
      simp only [Option.map_some', hevs, List.head?_cons, hmget]

theorem entries_by_seq_loop_spec (c : ICEClient) (seq : String)
    (rs : List BlastResult) :
    entries_by_seq_loop c seq rs =
      (List.mapM (fun r => c.get_ice_entry r.entryId)
          (rs.filter
            (fun r => containsSub r.alignment.data ("100%" : String).data))).map
        (List.filter (fun e => decide (e.sbol_doc.map sbol_get_seq = some seq))) := by
  induction rs with
  | nil => rfl
  | cons r rs ih =>
      by_cases h100 : containsSub r.alignment.data ("100%" : String).data = true
      · rw [List.filter_cons_of_pos (by exact h100), List.mapM_cons]
        simp only [entries_by_seq_loop, h100, if_true]
        cases hfetch : c.get_ice_entry r.entryId with
        | none => simp [hfetch]
        | some entry =>
            rw [ih]
            cases hmap : List.mapM (fun r => c.get_ice_entry r.entryId)
                (rs.filter
                  (fun r => containsSub r.alignment.data ("100%" : String).data)) with
            | none => simp [hmap]
            | some es =>
                simp only [hmap, Option.map_some', Option.some_bind,
                  List.filter_cons, decide_eq_true_eq]
                by_cases hq : entry.sbol_doc.map sbol_get_seq = some seq
                · have hq2 : ∃ a, entry.sbol_doc = some a ∧ sbol_get_seq a = seq := by
                    simpa [Option.map_eq_some'] using hq
                  simp [hq, List.filter_cons, hq2]
                · have hq2 : ¬ ∃ a, entry.sbol_doc = some a ∧ sbol_get_seq a = seq := by
                    simpa [Option.map_eq_some'] using hq
                  simp [hq, List.filter_cons, hq2]
      · simp only [entries_by_seq_loop, h100, if_false]
        rw [List.filter_cons_of_neg (by simpa using h100)]
        exact ih

/-- C5: the sequence search sends the query lowercased in a BLAST_N request,
fetches a full entry exactly for the search results whose alignment contains
`'100%'`, and returns, in search order, exactly the fetched entries whose
document's decoded sequence equals the query string. -/
theorem get_ice_entries_by_seq_spec (c : ICEClient) (seq : String) :
    c.get_ice_entries_by_seq seq =
      match (c.blastResp
          { blastProgram := "BLAST_N", sequence := pyLower seq }).results with
      | none => some []
      | some rs =>
          (List.mapM (fun r => c.get_ice_entry r.entryId)
              (rs.filter
                (fun r => containsSub r.alignment.data ("100%" : String).data))).map
            (List.filter
              (fun e => decide (e.sbol_doc.map sbol_get_seq = some seq))) := by
  unfold ICEClient.get_ice_entries_by_seq ICEClient.do_blast
  cases (c.blastResp { blastProgram := "BLAST_N", sequence := pyLower seq }).results with
  | none => rfl
  | some rs => exact entries_by_seq_loop_spec c seq rs
